import Mathlib

/-
Verification of the `pgi::DatabaseWorker` class (src/classes/DatabaseWorker.hpp)
against its natural-language specification.

The embedding is shallow: the statement-building code is translated to pure
Lean functions on `String`; the stateful parts (the YAML configuration tree
holding `tables` and `tables_details`) become explicit state passing; the
database connection becomes an oracle (`Db`) answering the schema-discovery
queries, and the raw execution helpers (`execute` / `execute1`) are modelled
over an `Except`-valued runner so that the exception-swallowing branches are
explicit.  `std::stringstream` contents are plain strings; the
`ss.seekp(-2, ss.cur)` idiom (move the put pointer two characters back and
overwrite) is modelled by `putAtEndMinus2`.
-/

namespace pgi

/-- Bool test that one character list starts another, mirroring the prefix
test used to search for a pattern inside a `std::string`. -/
def charsStartWith : List Char → List Char → Bool
  | [], _ => true
  | _ :: _, [] => false
  | p :: ps, c :: cs => p == c && charsStartWith ps cs

/-- Bool test that `pat` occurs somewhere in the list, mirroring
`std::string::find(pat) != std::string::npos`. -/
def occursIn (pat : List Char) : List Char → Bool
  | [] => pat.isEmpty
  | c :: cs => charsStartWith pat (c :: cs) || occursIn pat cs

/-- Test from DatabaseWorker.hpp line 324:
`it->second.as<std::string>().find("timestamp") != std::string::npos`. -/
def containsTimestamp (ty : String) : Bool :=
  occursIn "timestamp".data ty.data

/-- Model of writing the string `w` into a `std::stringstream` whose put
pointer was moved two characters back from the end (`ss.seekp(-2, ss.cur)`):
the write overwrites the characters under the pointer and extends the stream
if it runs past the end.  Characters after the written region survive (this
matters when `w` is the single character `)` written over `", "`: the final
space survives). -/
def putAtEndMinus2 (s w : String) : String :=
  String.mk (s.data.take (s.data.length - 2) ++ w.data
    ++ s.data.drop (s.data.length - 2 + w.data.length))

/-- Sequential streaming of text pieces into a `std::stringstream` with
`operator<<`: concatenation in order. -/
def joinParts : List String → String
  | [] => ""
  | s :: rest => s ++ joinParts rest

/-- Comma-separated rendering used by `select` (DatabaseWorker.hpp lines
39-41): the first element, then `", "` before each further element. -/
def commaSep : List String → String
  | [] => ""
  | [x] => x
  | x :: y :: xs => x ++ ", " ++ commaSep (y :: xs)

/-- Statement built by `select` (DatabaseWorker.hpp lines 28-48):
`SELECT <fields|*> FROM <table> [ WHERE <condition>] LIMIT <limit>`. -/
def select_statement (table_name : String) (fields : List String)
    (condition : String) (limit : Int) : String :=
  (if fields.isEmpty then "SELECT *" else "SELECT " ++ commaSep fields)
    ++ " FROM " ++ table_name
    ++ (if condition.isEmpty then "" else " WHERE " ++ condition)
    ++ " LIMIT " ++ toString limit

/-- Statement built by `clear` (DatabaseWorker.hpp lines 181-186). -/
def clear_statement (table_name : String) : String :=
  "TRUNCATE " ++ table_name ++ " CASCADE"

/-- The `tables_details` entry of one table: schema name, bare table name,
ordered column-name-to-type-name mapping, and primary-key column (YAML
mapping nodes preserve insertion order, so the columns are a list). -/
structure TableDetails where
  schema : String
  table : String
  columns : List (String × String)
  primary_key : String
deriving DecidableEq

/-- Statement-prefix built by `insert_statement_first_part`
(DatabaseWorker.hpp lines 314-333): `INSERT INTO <t>(` then, for every
column that is not the primary key or whose type name contains
"timestamp", the column name and `", "`; finally `seekp(-2)` and
`") VALUES("` overwrite the trailing separator. -/
def insert_statement_first_part (d : TableDetails) (table_name : String) : String :=
  putAtEndMinus2
    ("INSERT INTO " ++ table_name ++ "("
      ++ joinParts (d.columns.map (fun p =>
            if p.1 != d.primary_key || containsTimestamp p.2
            then p.1 ++ ", " else "")))
    ") VALUES("

/-- Statement built by the variadic / vector `insert` overloads
(DatabaseWorker.hpp lines 114-125 and 152-164): the first part, each value
followed by `", "`, then `seekp(-2)` and a single `)` written over the
comma (the final space of the trailing `", "` survives in the stream). -/
def insert_statement (d : TableDetails) (table_name : String)
    (values : List String) : String :=
  putAtEndMinus2
    (insert_statement_first_part d table_name
      ++ joinParts (values.map (fun v => v ++ ", ")))
    ")"

/-- Statement built by the timed-vector `insert` overload (DatabaseWorker.hpp
lines 167-179): like `insert_statement` but with `'<iso>', ` streamed first,
where `<iso>` is the ISO-8601 rendering of the time point (`utl::ISO_8601`
lives in datetime.hpp, outside src/, so the rendered text is a parameter). -/
def insert_timed_statement (d : TableDetails) (table_name : String)
    (iso : String) (values : List String) : String :=
  putAtEndMinus2
    (insert_statement_first_part d table_name
      ++ ("'" ++ iso ++ "', ")
      ++ joinParts (values.map (fun v => v ++ ", ")))
    ")"

/-- Statement built by `insert_from_maps` (DatabaseWorker.hpp lines 129-148).
`utl::merge_maps` lives in map_utls.hpp, outside src/; its output — the
merged key/value map, iterated in `std::map` key order — is taken as the
`merged` argument.  Column and value lists are built with trailing `", "`,
closed by `seekp(-2)` and a single `)` (leaving the final space), and glued
as `INSERT INTO <t> <columns>VALUES <values>`. -/
def insert_from_maps_statement (table_name : String)
    (merged : List (String × String)) : String :=
  let columns := putAtEndMinus2 ("(" ++ joinParts (merged.map (fun p => p.1 ++ ", "))) ")"
  let values := putAtEndMinus2 ("(" ++ joinParts (merged.map (fun p => p.2 ++ ", "))) ")"
  "INSERT INTO " ++ table_name ++ " " ++ columns ++ "VALUES " ++ values

/-- Splitting `schema.table` on the first `.` (DatabaseWorker.hpp lines
224-231, `std::getline(ss, segment, '.')` twice): the first segment — the
characters before the first dot. -/
def schemaOf (table_name : String) : String :=
  String.mk (table_name.data.takeWhile (fun c => c != '.'))

/-- The second `std::getline` segment of a table identifier: the characters
after the first dot up to the next dot (empty when there is no second
segment, matching `std::getline` clearing the string at EOF). -/
def tableOf (table_name : String) : String :=
  String.mk (((table_name.data.dropWhile (fun c => c != '.')).drop 1).takeWhile
    (fun c => c != '.'))

/-- Query issued by `get_column_details` (DatabaseWorker.hpp line 234):
`utl::string_format("SELECT * FROM %s LIMIT 0", table_name)`
(`utl::string_format` lives in string_utls.hpp, outside src/; `%s` is
printf substitution). -/
def select_limit0 (table_name : String) : String :=
  "SELECT * FROM " ++ table_name ++ " LIMIT 0"

/-- Primary-key query issued by `get_column_details` (DatabaseWorker.hpp
lines 242-250), with the schema and bare table name substituted for the two
`%s` holes. -/
def pk_query (schema table : String) : String :=
  "SELECT c.column_name, c.data_type "
    ++ "FROM information_schema.table_constraints tc "
    ++ "JOIN information_schema.constraint_column_usage AS ccu USING (constraint_schema, constraint_name) "
    ++ "JOIN information_schema.columns AS c ON c.table_schema = '" ++ schema
    ++ "' "
    ++ "  AND tc.table_name = '" ++ table
    ++ "' AND ccu.column_name = c.column_name "
    ++ "WHERE constraint_type = 'PRIMARY KEY';"

/-- Database oracle answering the two schema-discovery queries for a table.
`columnsOf t` gives the column names of `SELECT * FROM t LIMIT 0` paired
with their type names (the per-column OID-to-typname catalog lookup of
`get_typname_from_oid` is collapsed into the oracle: those lookups hit the
`pg_type` system catalog, never a user table).  `pkRows schema table` gives
the rows `(column_name, data_type)` of the primary-key query. -/
structure Db where
  columnsOf : String → List (String × String)
  pkRows : String → String → List (String × String)

/-- The worker's mutable YAML bookkeeping: the `tables` list and the
`tables_details` mapping (association list keyed by full table name). -/
structure WorkerState where
  tables : List String
  tables_details : List (String × TableDetails)
deriving DecidableEq

/-- One observable action of the worker: an SQL statement handed to the
execution helpers. -/
inductive Event where
  | exec (stmt : String)
deriving DecidableEq

/-- Assignment into a YAML mapping node: overwrite the entry when the key is
present, append it otherwise (keys are unique in a YAML mapping). -/
def setEntry : List (String × TableDetails) → String → TableDetails →
    List (String × TableDetails)
  | [], k, v => [(k, v)]
  | p :: m, k, v => if p.1 == k then (k, v) :: m else p :: setEntry m k v

/-- The `tables_details` entry `get_column_details` computes for one table
(DatabaseWorker.hpp lines 220-260): split schema/table, columns from the
zero-row select, and primary key from the first row's first column of the
primary-key query — or the sentinel `"_none_"` when that query returns no
rows (lines 251-254). -/
def mkDetails (db : Db) (table_name : String) : TableDetails :=
  { schema := schemaOf table_name
    table := tableOf table_name
    columns := db.columnsOf table_name
    primary_key :=
      match db.pkRows (schemaOf table_name) (tableOf table_name) with
      | [] => "_none_"
      | r0 :: _ => r0.1 }

/-- State update and executed statements of `get_column_details` for one
table. -/
def get_column_details (db : Db) (st : WorkerState) (table_name : String) :
    WorkerState × List Event :=
  ({ st with tables_details := setEntry st.tables_details table_name (mkDetails db table_name) },
   [Event.exec (select_limit0 table_name),
    Event.exec (pk_query (schemaOf table_name) (tableOf table_name))])

/-- `explore_tables` (DatabaseWorker.hpp lines 208-218): run
`get_column_details` for every listed table, in order. -/
def explore_tables (db : Db) : WorkerState → List String → WorkerState × List Event
  | st, [] => (st, [])
  | st, t :: ts =>
    let r1 := get_column_details db st t
    let r2 := explore_tables db r1.1 ts
    (r2.1, r1.2 ++ r2.2)

/-- `explore_if_unknown` (DatabaseWorker.hpp lines 335-341): nothing when
the table already has a `tables_details` entry; otherwise push the table
onto `tables` and re-explore the whole list. -/
def explore_if_unknown (db : Db) (st : WorkerState) (table_name : String) :
    WorkerState × List Event :=
  if (st.tables_details.lookup table_name).isSome then (st, [])
  else
    explore_tables db { st with tables := st.tables ++ [table_name] }
      (st.tables ++ [table_name])

/-- The `tables_details` entry the statement-building code reads back after
`explore_if_unknown` (the C++ reads the YAML node directly; a missing node
would throw, and the theorems show the entry exists on the paths used). -/
def detailsOf (st : WorkerState) (table_name : String) : TableDetails :=
  (st.tables_details.lookup table_name).getD ⟨"", "", [], ""⟩

/-- `select` (DatabaseWorker.hpp lines 28-50): explore if unknown, then
execute the built statement. -/
def select (db : Db) (st : WorkerState) (table_name : String)
    (fields : List String) (condition : String) (limit : Int) :
    WorkerState × List Event :=
  let r := explore_if_unknown db st table_name
  (r.1, r.2 ++ [Event.exec (select_statement table_name fields condition limit)])

/-- `select_all_columns` (DatabaseWorker.hpp lines 52-55): `select` with no
fields and the default limit 100. -/
def select_all_columns (db : Db) (st : WorkerState) (table_name : String)
    (condition : String) : WorkerState × List Event :=
  select db st table_name [] condition 100

/-- The variadic / vector `insert` overloads as state transformers: explore
if unknown, then execute the built statement (the values already rendered
to text by `operator<<`). -/
def insert (db : Db) (st : WorkerState) (table_name : String)
    (values : List String) : WorkerState × List Event :=
  let r := explore_if_unknown db st table_name
  (r.1, r.2 ++ [Event.exec (insert_statement (detailsOf r.1 table_name) table_name values)])

/-- The timed-vector `insert` overload as a state transformer. -/
def insert_timed (db : Db) (st : WorkerState) (table_name : String)
    (iso : String) (values : List String) : WorkerState × List Event :=
  let r := explore_if_unknown db st table_name
  (r.1, r.2 ++ [Event.exec (insert_timed_statement (detailsOf r.1 table_name) table_name iso values)])

/-- `insert_from_maps` as a state transformer: the statement is built from
the merged maps first (lines 131-145), then `explore_if_unknown` runs (line
146), then the statement executes (line 147). -/
def insert_from_maps (db : Db) (st : WorkerState) (table_name : String)
    (merged : List (String × String)) : WorkerState × List Event :=
  let r := explore_if_unknown db st table_name
  (r.1, r.2 ++ [Event.exec (insert_from_maps_statement table_name merged)])

/-- `clear` (DatabaseWorker.hpp lines 181-186): build `TRUNCATE <t> CASCADE`
and execute it.  Note: no `explore_if_unknown` call. -/
def clear (st : WorkerState) (table_name : String) : WorkerState × List Event :=
  (st, [Event.exec (clear_statement table_name)])

/-- The constructor's table work (DatabaseWorker.hpp lines 15-26): starting
from an empty `tables_details`, explore every configured table. -/
def construct (db : Db) (tables : List String) : WorkerState × List Event :=
  explore_tables db { tables := tables, tables_details := [] } tables

/-- One field of a result row as `print_row` sees it: the column name
(`field.name()`), the resolved type name (`get_typname_from_oid(field.type())`,
the OID hop collapsed), and the field's text (`field.c_str()`). -/
structure Field where
  name : String
  typ : String
  value : String
deriving DecidableEq

/-- Modelled from the spec: `utl::truncate` lives in string_utls.hpp, which
is not under src/; the spec says "field values are truncated to fit", so it
is modelled as taking the first `w` characters. -/
def truncate (s : String) (w : Nat) : String :=
  s.take w

/-- `std::left << std::setw(w) << std::setfill(' ')`: pad on the right with
spaces up to width `w` (never shortens). -/
def padTo (s : String) (w : Nat) : String :=
  s ++ String.mk (List.replicate (w - s.length) ' ')

/-- Width lookup in the configuration's `field_length_mapping`
(DatabaseWorker.hpp lines 85-90): the configured width for the type name,
10 when the type has no entry. -/
def widthFor (flm : List (String × Nat)) (ty : String) : Nat :=
  (flm.lookup ty).getD 10

/-- The final width of a column (line 91): the configured-or-default width,
widened to the column header's length if that is longer. -/
def fieldWidth (flm : List (String × Nat)) (f : Field) : Nat :=
  max f.name.length (widthFor flm f.typ)

/-- One data cell as `print_row` streams it (lines 92-93): the truncated
value, left-padded to the field width, then the separator `" |"`. -/
def render_field (flm : List (String × Nat)) (f : Field) : String :=
  padTo (truncate f.value (fieldWidth flm f)) (fieldWidth flm f) ++ " |"

/-- One header cell as `print_row` streams it (lines 94-96): the truncated
column name, padded to the same width, then `" |"`. -/
def render_header_field (flm : List (String × Nat)) (f : Field) : String :=
  padTo (truncate f.name (fieldWidth flm f)) (fieldWidth flm f) ++ " |"

/-- `print_row` (DatabaseWorker.hpp lines 73-107): all data cells in order;
with `header` set, the header cells, a newline, then the data cells. -/
def print_row (flm : List (String × Nat)) (row : List Field)
    (header : Bool) : String :=
  if header then
    joinParts (row.map (render_header_field flm)) ++ "\n"
      ++ joinParts (row.map (render_field flm))
  else
    joinParts (row.map (render_field flm))

/-- `print` (DatabaseWorker.hpp lines 57-71): fold over the rows with the
`header_added` flag, printing each row (with the header exactly when the
flag is still unset) followed by a newline, and write the accumulated text
to standard output. -/
def print_result (flm : List (String × Nat)) (r : List (List Field)) : String :=
  (r.foldl
    (fun (acc : String × Bool) row =>
      (acc.1 ++ print_row flm row (!acc.2) ++ "\n", true))
    ("", false)).1

/-- Result of `pqxx::result` in text form: rows of field texts.  A
default-constructed result is the empty list. -/
abbrev Rows := List (List String)

/-- Transaction-level steps taken by the execution helpers: constructing the
`pqxx::work` (begin), running the statement, committing. -/
inductive TxEvent where
  | beginTx
  | runStmt (s : String)
  | commitTx
deriving DecidableEq

/-- Outcome of one call to an execution helper: the value handed back to the
caller, the transaction steps that happened, and the text written to
standard error. -/
structure ExecOutcome (α : Type) where
  result : α
  events : List TxEvent
  stderr : String
deriving DecidableEq

/-- The three fallible steps of one execution-helper call, as the underlying
pqxx library can fail them: constructing the `pqxx::work` (which throws for
example when there is no valid connection), running the one statement, and
committing.  Each stage is `Except`-valued with the exception's message in
the error case. -/
structure TxRunner (α : Type) where
  beginTx : Except String Unit
  runStmt : String → Except String α
  commitTx : Except String Unit

/-- `execute` (DatabaseWorker.hpp lines 270-283): `pqxx::result r;` then in
a try block `pqxx::work w(*c_); r = w.exec(statement); w.commit();`.  Any
exception is caught and its message written to standard error with a
newline.  `r` is assigned before `commit()`, so an exception thrown by
`commit()` still returns the already-fetched rows; an exception thrown
earlier returns `r` default-constructed (empty).  The events record the
transaction steps that completed. -/
def execute (run : TxRunner Rows) (statement : String) : ExecOutcome Rows :=
  match run.beginTx with
  | Except.error e => ⟨[], [], e ++ "\n"⟩
  | Except.ok _ =>
    match run.runStmt statement with
    | Except.error e => ⟨[], [TxEvent.beginTx], e ++ "\n"⟩
    | Except.ok r =>
      match run.commitTx with
      | Except.error e =>
        ⟨r, [TxEvent.beginTx, TxEvent.runStmt statement], e ++ "\n"⟩
      | Except.ok _ =>
        ⟨r, [TxEvent.beginTx, TxEvent.runStmt statement, TxEvent.commitTx], ""⟩

/-- `execute1` (DatabaseWorker.hpp lines 285-298): like `execute` but via
`pqxx::work::exec1`, holding one row; `r` is likewise assigned before
`commit()`, and is the default-constructed empty row when `w(*c_)` or
`exec1` throws. -/
def execute1 (run : TxRunner (List String)) (statement : String) :
    ExecOutcome (List String) :=
  match run.beginTx with
  | Except.error e => ⟨[], [], e ++ "\n"⟩
  | Except.ok _ =>
    match run.runStmt statement with
    | Except.error e => ⟨[], [TxEvent.beginTx], e ++ "\n"⟩
    | Except.ok r =>
      match run.commitTx with
      | Except.error e =>
        ⟨r, [TxEvent.beginTx, TxEvent.runStmt statement], e ++ "\n"⟩
      | Except.ok _ =>
        ⟨r, [TxEvent.beginTx, TxEvent.runStmt statement, TxEvent.commitTx], ""⟩

/-- Catalog query of `get_typname_from_oid` (DatabaseWorker.hpp line 265),
with `%d` substituted. -/
def typname_query (oid : Int) : String :=
  "SELECT t.typname FROM pg_type t WHERE t.oid = " ++ toString oid

/-- The row `get_typname_from_oid` (DatabaseWorker.hpp lines 262-267) holds
after calling `execute1`. -/
def get_typname_row (run : TxRunner (List String)) (oid : Int) :
    List String :=
  (execute1 run (typname_query oid)).result

/-- The unconditional `row[0]` access of `get_typname_from_oid` (line 266),
made total with an `Option`: `none` is exactly the case where the C++ access
is out of bounds. -/
def get_typname_from_oid (run : TxRunner (List String))
    (oid : Int) : Option String :=
  (get_typname_row run oid)[0]?

/-- Spec-side description of the insert column list: every column except the
primary key, unless the column's type name contains "timestamp". -/
def includedColumns (d : TableDetails) : List String :=
  (d.columns.filter (fun p => p.1 != d.primary_key || containsTimestamp p.2)).map
    (fun p => p.1)

/-- The example table of the specification: primary key `id` of integer
type, columns `id`, `name`, `created_at` (timestamp-typed). -/
def exampleDetails : TableDetails :=
  ⟨"public", "t",
    [("id", "int4"), ("name", "text"), ("created_at", "timestamp without time zone")],
    "id"⟩

/-- A worker state with no known tables. -/
def st0 : WorkerState := ⟨[], []⟩

/-- A worker state that has already discovered the example table `t`. -/
def stKnown : WorkerState := ⟨["t"], [("t", exampleDetails)]⟩

/-- A small database oracle: one integer column, no primary key. -/
def db0 : Db := ⟨fun _ => [("id", "int4")], fun _ _ => []⟩

/-- A database oracle whose primary-key query returns a row. -/
def dbWithPk : Db := ⟨fun _ => [("id", "int4")], fun _ _ => [("id", "integer")]⟩

/-- A runner on which every statement's execution throws. -/
def runFailing : TxRunner (List String) :=
  ⟨Except.ok (), fun _ => Except.error "connection refused", Except.ok ()⟩

/-- A runner on which every stage succeeds, yielding one one-field row. -/
def runOk : TxRunner Rows :=
  ⟨Except.ok (), fun _ => Except.ok [["x"]], Except.ok ()⟩

/-- A runner whose `pqxx::work` construction throws. -/
def runBeginFails : TxRunner Rows :=
  ⟨Except.error "broken connection", fun _ => Except.ok [], Except.ok ()⟩

/-- A runner on which the statement succeeds but `commit()` throws. -/
def runCommitFails : TxRunner Rows :=
  ⟨Except.ok (), fun _ => Except.ok [["x"]], Except.error "could not commit"⟩

theorem append_append_left {a b c : String} (x : String) (h : a ++ b = c) :
    a ++ (b ++ x) = c ++ x := by
  rw [← String.append_assoc, h]

theorem select_statement_default (t : String) :
    select_statement t [] "" 100 = "SELECT * FROM " ++ t ++ " LIMIT 100" := by
  show "SELECT *" ++ " FROM " ++ t ++ "" ++ " LIMIT " ++ toString (100 : Int)
      = "SELECT * FROM " ++ t ++ " LIMIT 100"
  rw [String.append_empty, String.append_assoc]
  rw [show (" LIMIT " : String) ++ toString (100 : Int) = " LIMIT 100" from rfl]
  rw [show ("SELECT *" : String) ++ " FROM " = "SELECT * FROM " from rfl]

/-- C8: for every table name `t`, `clear(t)` executes exactly the statement
`TRUNCATE t CASCADE` — and nothing else. -/
theorem claim_C8 (st : WorkerState) (t : String) :
    (clear st t).2 = [Event.exec ("TRUNCATE " ++ t ++ " CASCADE")] :=
  rfl

/-- C3: `select` builds `SELECT <fields|*> FROM <table> [WHERE <cond>]
LIMIT <limit>`: `select_all_columns t` with no condition executes
`SELECT * FROM t LIMIT 100` as its final statement, and
`select("t", {"a","b"}, "a > 1", 5)` executes
`SELECT a, b FROM t WHERE a > 1 LIMIT 5`. -/
theorem claim_C3 (db : Db) (st : WorkerState) (t : String) :
    (select_all_columns db st t "").2.getLast?
        = some (Event.exec ("SELECT * FROM " ++ t ++ " LIMIT 100"))
    ∧ (select db st "t" ["a", "b"] "a > 1" 5).2.getLast?
        = some (Event.exec "SELECT a, b FROM t WHERE a > 1 LIMIT 5") := by
  constructor
  · show ((explore_if_unknown db st t).2
        ++ [Event.exec (select_statement t [] "" 100)]).getLast? = _
    rw [List.getLast?_concat, select_statement_default]
  · show ((explore_if_unknown db st "t").2
        ++ [Event.exec (select_statement "t" ["a", "b"] "a > 1" 5)]).getLast? = _
    rw [List.getLast?_concat,
      show select_statement "t" ["a", "b"] "a > 1" 5
          = "SELECT a, b FROM t WHERE a > 1 LIMIT 5" by decide]

/-- C9: printing an empty result set writes nothing to standard output,
not even the header row: the header is emitted only with the first data
row. -/
theorem claim_C9 (flm : List (String × Nat)) :
    print_result flm [] = "" :=
  rfl

/-- C4 (amended): each execution helper runs its statement in a fresh
single-statement transaction (begin, run, commit) committed on success;
any exception is caught and its message written to standard error with a
newline.  An exception thrown before the result is assigned — `pqxx::work`
construction or `exec`/`exec1` — returns the default-constructed empty
result, indistinguishable from a zero-row success; but an exception thrown
by `commit()` after a successful `exec` returns the already-fetched,
possibly non-empty result. -/
theorem claim_C4 (run : TxRunner Rows) (run1 : TxRunner (List String))
    (statement : String) (r : Rows) (row : List String) (e : String) :
    (run.beginTx = Except.ok () → run.runStmt statement = Except.ok r →
      run.commitTx = Except.ok () →
      execute run statement
        = ⟨r, [TxEvent.beginTx, TxEvent.runStmt statement, TxEvent.commitTx], ""⟩)
    ∧ (run.beginTx = Except.error e →
      execute run statement = ⟨[], [], e ++ "\n"⟩)
    ∧ (run.beginTx = Except.ok () → run.runStmt statement = Except.error e →
      execute run statement = ⟨[], [TxEvent.beginTx], e ++ "\n"⟩)
    ∧ (run.beginTx = Except.ok () → run.runStmt statement = Except.ok r →
      run.commitTx = Except.error e →
      execute run statement
        = ⟨r, [TxEvent.beginTx, TxEvent.runStmt statement], e ++ "\n"⟩)
    ∧ (run.beginTx = Except.ok () → run.runStmt statement = Except.error e →
      (execute run statement).result
        = (execute ⟨Except.ok (), fun _ => Except.ok [], Except.ok ()⟩
            statement).result)
    ∧ (run1.beginTx = Except.ok () → run1.runStmt statement = Except.ok row →
      run1.commitTx = Except.ok () →
      execute1 run1 statement
        = ⟨row, [TxEvent.beginTx, TxEvent.runStmt statement, TxEvent.commitTx], ""⟩)
    ∧ (run1.beginTx = Except.ok () → run1.runStmt statement = Except.error e →
      execute1 run1 statement = ⟨[], [TxEvent.beginTx], e ++ "\n"⟩)
    ∧ (run1.beginTx = Except.ok () → run1.runStmt statement = Except.ok row →
      run1.commitTx = Except.error e →
      execute1 run1 statement
        = ⟨row, [TxEvent.beginTx, TxEvent.runStmt statement], e ++ "\n"⟩) := by
  refine ⟨fun h1 h2 h3 => ?_, fun h1 => ?_, fun h1 h2 => ?_, fun h1 h2 h3 => ?_,
    fun h1 h2 => ?_, fun h1 h2 h3 => ?_, fun h1 h2 => ?_, fun h1 h2 h3 => ?_⟩
  · simp [execute, h1, h2, h3]
  · simp [execute, h1]
  · simp [execute, h1, h2]
  · simp [execute, h1, h2, h3]
  · simp [execute, h1, h2]
  · simp [execute1, h1, h2, h3]
  · simp [execute1, h1, h2]
  · simp [execute1, h1, h2, h3]

/-- Counterexample to C4 as stated: when `commit()` throws after the
statement succeeded, the helper returns the already-fetched non-empty
result, not the default-constructed empty one. -/
theorem claim_C4_cex :
    runCommitFails.runStmt "SELECT 1" = Except.ok [["x"]]
    ∧ runCommitFails.commitTx = Except.error "could not commit"
    ∧ execute runCommitFails "SELECT 1"
        = ⟨[["x"]], [TxEvent.beginTx, TxEvent.runStmt "SELECT 1"],
            "could not commit\n"⟩
    ∧ (execute runCommitFails "SELECT 1").result ≠ [] := by
  refine ⟨rfl, rfl, rfl, ?_⟩
  decide

/-- Closed instance of C4 (amended) at concrete runners, discharging each
hypothesis: full success, construction failure, execution failure, and
commit failure. -/
theorem claim_C4_witness :
    execute runOk "S"
        = ⟨[["x"]], [TxEvent.beginTx, TxEvent.runStmt "S", TxEvent.commitTx], ""⟩
    ∧ execute runBeginFails "S" = ⟨[], [], "broken connection\n"⟩
    ∧ execute1 runFailing "S"
        = ⟨[], [TxEvent.beginTx], "connection refused\n"⟩
    ∧ execute runCommitFails "S"
        = ⟨[["x"]], [TxEvent.beginTx, TxEvent.runStmt "S"], "could not commit\n"⟩ :=
  ⟨(claim_C4 runOk runFailing "S" [["x"]] [] "e").1 rfl rfl rfl,
    (claim_C4 runBeginFails runFailing "S" [] [] "broken connection").2.1 rfl,
    (claim_C4 runOk runFailing "S" [] [] "connection refused").2.2.2.2.2.2.1
      rfl rfl,
    (claim_C4 runCommitFails runFailing "S" [["x"]] [] "could not commit").2.2.2.1
      rfl rfl rfl⟩

/-- C10: when the typname query's execution fails in `execute1` (for
example with no valid connection, or an OID absent from the catalog making
`exec1` throw), `r` was never assigned, so `get_typname_from_oid` is left
holding the default-constructed empty row, and its unconditional `row[0]`
access is out of bounds — the catch branch of `execute1` does not make that
access safe. -/
theorem claim_C10 (run1 : TxRunner (List String)) (oid : Int)
    (e : String) (h : run1.runStmt (typname_query oid) = Except.error e) :
    get_typname_row run1 oid = []
    ∧ get_typname_from_oid run1 oid = none
    ∧ ¬0 < (get_typname_row run1 oid).length := by
  have hrow : get_typname_row run1 oid = [] := by
    unfold get_typname_row execute1
    cases hb : run1.beginTx with
    | error e2 => rfl
    | ok u => rw [h]
  refine ⟨hrow, ?_, ?_⟩
  · simp [get_typname_from_oid, hrow]
  · simp [hrow]

/-- Closed instance of C10: a runner on which every statement's execution
throws. -/
theorem claim_C10_witness :
    runFailing.runStmt (typname_query 23) = Except.error "connection refused"
    ∧ get_typname_row runFailing 23 = []
    ∧ get_typname_from_oid runFailing 23 = none
    ∧ ¬0 < (get_typname_row runFailing 23).length :=
  ⟨rfl, claim_C10 runFailing 23 "connection refused" rfl⟩

theorem seekp_list_big (l w : List Char) (h2 : 2 ≤ w.length) :
    (l ++ [',', ' ']).take ((l ++ [',', ' ']).length - 2) ++ w
      ++ (l ++ [',', ' ']).drop ((l ++ [',', ' ']).length - 2 + w.length)
      = l ++ w := by
  have hlen : (l ++ [',', ' ']).length = l.length + 2 := by simp
  have h1 : l.length + 2 - 2 = l.length := by omega
  rw [hlen, h1, List.take_left]
  rw [List.drop_eq_nil_of_le (by simp; omega)]
  simp

theorem seekp_list_one (l : List Char) (c : Char) :
    (l ++ [',', ' ']).take ((l ++ [',', ' ']).length - 2) ++ [c]
      ++ (l ++ [',', ' ']).drop ((l ++ [',', ' ']).length - 2 + 1)
      = l ++ [c, ' '] := by
  have hlen : (l ++ [',', ' ']).length = l.length + 2 := by simp
  have h1 : l.length + 2 - 2 = l.length := by omega
  have hd : (l ++ [',', ' ']).drop (l.length + 1) = [' '] := by
    rw [show l ++ [',', ' '] = (l ++ [',']) ++ [' '] from by simp]
    exact List.drop_left' (by simp)
  rw [hlen, h1, List.take_left, hd]
  simp

theorem putAtEndMinus2_comma_space (a w : String) (h2 : 2 ≤ w.data.length) :
    putAtEndMinus2 (a ++ ", ") w = a ++ w := by
  apply String.ext
  show (a ++ ", ").data.take ((a ++ ", ").data.length - 2) ++ w.data
      ++ (a ++ ", ").data.drop ((a ++ ", ").data.length - 2 + w.data.length)
    = (a ++ w).data
  rw [String.data_append a ", ", String.data_append a w,
    show (", " : String).data = [',', ' '] from rfl]
  exact seekp_list_big a.data w.data h2

theorem putAtEndMinus2_paren (a : String) :
    putAtEndMinus2 (a ++ ", ") ")" = a ++ ") " := by
  apply String.ext
  show (a ++ ", ").data.take ((a ++ ", ").data.length - 2) ++ [')']
      ++ (a ++ ", ").data.drop ((a ++ ", ").data.length - 2 + 1)
    = (a ++ ") ").data
  rw [String.data_append a ", ", String.data_append a ") ",
    show (", " : String).data = [',', ' '] from rfl,
    show (") " : String).data = [')', ' '] from rfl]
  exact seekp_list_one a.data ')'

theorem empty_append_str (s : String) : "" ++ s = s := by
  apply String.ext
  rw [String.data_append]
  exact List.nil_append s.data

theorem joinParts_comma_strings (x : String) (l : List String) :
    joinParts ((x :: l).map (fun v => v ++ ", ")) = commaSep (x :: l) ++ ", " := by
  induction l generalizing x with
  | nil =>
    show (x ++ ", ") ++ "" = x ++ ", "
    exact String.append_empty _
  | cons y l ih =>
    show (x ++ ", ") ++ joinParts ((y :: l).map (fun v => v ++ ", "))
        = ((x ++ ", ") ++ commaSep (y :: l)) ++ ", "
    rw [ih y, ← String.append_assoc]

theorem joinParts_comma_pairs (f : String × String → String) (m : String × String)
    (ms : List (String × String)) :
    joinParts ((m :: ms).map (fun p => f p ++ ", "))
      = commaSep ((m :: ms).map f) ++ ", " := by
  induction ms generalizing m with
  | nil =>
    show (f m ++ ", ") ++ "" = f m ++ ", "
    exact String.append_empty _
  | cons y l ih =>
    show (f m ++ ", ") ++ joinParts ((y :: l).map (fun p => f p ++ ", "))
        = ((f m ++ ", ") ++ commaSep ((y :: l).map f)) ++ ", "
    rw [ih y, ← String.append_assoc]

theorem joinParts_ite_filter (pk : String) (cols : List (String × String)) :
    joinParts (cols.map (fun p =>
        if p.1 != pk || containsTimestamp p.2 then p.1 ++ ", " else ""))
      = joinParts (((cols.filter (fun p => p.1 != pk || containsTimestamp p.2)).map
          (fun p => p.1)).map (fun v => v ++ ", ")) := by
  induction cols with
  | nil => rfl
  | cons p cols ih =>
    by_cases hp : (p.1 != pk || containsTimestamp p.2) = true
    · rw [List.map_cons,
        @List.filter_cons_of_pos _ (fun q => q.1 != pk || containsTimestamp q.2) p cols hp,
        List.map_cons, List.map_cons]
      show (if (p.1 != pk || containsTimestamp p.2) = true then p.1 ++ ", " else "")
          ++ joinParts (cols.map (fun p =>
              if p.1 != pk || containsTimestamp p.2 then p.1 ++ ", " else ""))
        = (p.1 ++ ", ") ++ joinParts (((cols.filter
              (fun p => p.1 != pk || containsTimestamp p.2)).map
            (fun p => p.1)).map (fun v => v ++ ", "))
      rw [if_pos hp, ih]
    · rw [List.map_cons,
        @List.filter_cons_of_neg _ (fun q => q.1 != pk || containsTimestamp q.2) p cols hp]
      show (if (p.1 != pk || containsTimestamp p.2) = true then p.1 ++ ", " else "")
          ++ joinParts (cols.map (fun p =>
              if p.1 != pk || containsTimestamp p.2 then p.1 ++ ", " else ""))
        = joinParts (((cols.filter
              (fun p => p.1 != pk || containsTimestamp p.2)).map
            (fun p => p.1)).map (fun v => v ++ ", "))
      rw [if_neg hp, ih, empty_append_str]

theorem insert_statement_first_part_eq (d : TableDetails) (t : String)
    (h : includedColumns d ≠ []) :
    insert_statement_first_part d t
      = "INSERT INTO " ++ t ++ "(" ++ commaSep (includedColumns d) ++ ") VALUES(" := by
  obtain ⟨x, l, hx⟩ : ∃ x l, includedColumns d = x :: l := by
    cases hc : includedColumns d with
    | nil => exact absurd hc h
    | cons x l => exact ⟨x, l, rfl⟩
  unfold insert_statement_first_part
  rw [joinParts_ite_filter d.primary_key d.columns]
  rw [show ((d.columns.filter (fun p => p.1 != d.primary_key || containsTimestamp p.2)).map
      (fun p => p.1)) = includedColumns d from rfl]
  rw [hx, joinParts_comma_strings]
  rw [← String.append_assoc]
  rw [putAtEndMinus2_comma_space _ _ (by decide)]

/-- C1 (amended): the positional, vector and timed `insert` overloads build
their column list from `insert_statement_first_part`, which lists every
discovered column except the primary key unless that column's type name
contains "timestamp"; `insert_from_maps` instead uses the caller-supplied
keys verbatim (so a primary-key column present in the maps is included even
when its type is not timestamp-typed). -/
theorem claim_C1 (d : TableDetails) (t : String) :
    (includedColumns d ≠ [] →
      insert_statement_first_part d t
        = "INSERT INTO " ++ t ++ "(" ++ commaSep (includedColumns d) ++ ") VALUES(")
    ∧ ∀ (m : String × String) (ms : List (String × String)),
        insert_from_maps_statement t (m :: ms)
          = "INSERT INTO " ++ t ++ " "
            ++ ("(" ++ commaSep ((m :: ms).map (fun p => p.1)) ++ ") ")
            ++ "VALUES "
            ++ ("(" ++ commaSep ((m :: ms).map (fun p => p.2)) ++ ") ") := by
  constructor
  · exact insert_statement_first_part_eq d t
  · intro m ms
    show "INSERT INTO " ++ t ++ " "
        ++ putAtEndMinus2 ("(" ++ joinParts ((m :: ms).map (fun p => p.1 ++ ", "))) ")"
        ++ "VALUES "
        ++ putAtEndMinus2 ("(" ++ joinParts ((m :: ms).map (fun p => p.2 ++ ", "))) ")"
      = _
    rw [joinParts_comma_pairs (fun p => p.1) m ms,
      joinParts_comma_pairs (fun p => p.2) m ms]
    rw [← String.append_assoc "(" (commaSep ((m :: ms).map (fun p => p.1)))]
    rw [← String.append_assoc "(" (commaSep ((m :: ms).map (fun p => p.2)))]
    rw [putAtEndMinus2_paren, putAtEndMinus2_paren]

/-- Counterexample to C1 as stated: on a discovered table whose primary key
`id` has the non-timestamp type `int4`, the `insert_from_maps` variant still
lists `id` in the generated column list. -/
theorem claim_C1_cex :
    (stKnown.tables_details.lookup "t").map (fun d => d.primary_key) = some "id"
    ∧ (stKnown.tables_details.lookup "t").map
        (fun d => d.columns.lookup "id") = some (some "int4")
    ∧ containsTimestamp "int4" = false
    ∧ insert_from_maps_statement "t" [("id", "1"), ("name", "'x'")]
        = "INSERT INTO t (id, name) VALUES (1, 'x') " := by
  refine ⟨rfl, rfl, rfl, ?_⟩
  decide

/-- Closed instance of C1 on the specification's example table: primary key
`id` (integer) excluded, timestamp-typed `created_at` included. -/
theorem claim_C1_witness :
    includedColumns exampleDetails ≠ []
    ∧ insert_statement_first_part exampleDetails "t"
        = "INSERT INTO t(name, created_at) VALUES(" :=
  ⟨by decide,
    ((claim_C1 exampleDetails "t").1 (by decide)).trans (by decide)⟩

theorem lookup_setEntry_self (m : List (String × TableDetails)) (k : String)
    (v : TableDetails) : (setEntry m k v).lookup k = some v := by
  induction m with
  | nil => simp [setEntry, List.lookup_cons]
  | cons p m ih =>
    rw [setEntry]
    by_cases hp : p.1 = k
    · rw [if_pos (by simp [hp]), List.lookup_cons]
      simp
    · rw [if_neg (by simp [hp])]
      obtain ⟨k1, v1⟩ := p
      rw [List.lookup_cons, show (k == k1) = false from by
        simp only at hp
        simp [Ne.symm hp]]
      exact ih

theorem lookup_setEntry_ne (m : List (String × TableDetails)) (k k2 : String)
    (v : TableDetails) (h : k2 ≠ k) :
    (setEntry m k v).lookup k2 = m.lookup k2 := by
  induction m with
  | nil =>
    simp [setEntry, List.lookup_cons, show (k2 == k) = false from by simp [h]]
  | cons p m ih =>
    rw [setEntry]
    obtain ⟨k1, v1⟩ := p
    by_cases hp : k1 = k
    · rw [if_pos (by simp [hp]), List.lookup_cons, List.lookup_cons,
        show (k2 == k) = false from by simp [h],
        show (k2 == k1) = false from by simp [hp ▸ h]]
    · rw [if_neg (by simp [hp]), List.lookup_cons, List.lookup_cons]
      cases hk : (k2 == k1) with
      | true => rfl
      | false => exact ih

theorem explore_tables_lookup_of_not_mem (db : Db) (ts : List String) :
    ∀ (st : WorkerState) (t : String), t ∉ ts →
      ((explore_tables db st ts).1).tables_details.lookup t
        = st.tables_details.lookup t := by
  induction ts with
  | nil => intro st t _; rfl
  | cons u ts ih =>
    intro st t ht
    rw [explore_tables]
    rw [ih _ t (fun hc => ht (List.mem_cons_of_mem u hc))]
    exact lookup_setEntry_ne _ _ _ _ (fun he => ht (he ▸ List.mem_cons_self u ts))

theorem explore_tables_lookup_of_mem (db : Db) (ts : List String) :
    ∀ (st : WorkerState) (t : String), t ∈ ts →
      ((explore_tables db st ts).1).tables_details.lookup t
        = some (mkDetails db t) := by
  induction ts with
  | nil => intro st t ht; simp at ht
  | cons u ts ih =>
    intro st t ht
    rw [explore_tables]
    by_cases hts : t ∈ ts
    · exact ih _ t hts
    · have htu : t = u := by
        rcases List.mem_cons.mp ht with h | h
        · exact h
        · exact absurd h hts
      rw [explore_tables_lookup_of_not_mem db ts _ t hts]
      subst htu
      exact lookup_setEntry_self _ _ _

theorem explore_tables_events (db : Db) (ts : List String) :
    ∀ (st : WorkerState) (e : Event), e ∈ (explore_tables db st ts).2 →
      ∃ u, u ∈ ts ∧ (e = Event.exec (select_limit0 u)
        ∨ e = Event.exec (pk_query (schemaOf u) (tableOf u))) := by
  induction ts with
  | nil => intro st e he; simp [explore_tables] at he
  | cons u ts ih =>
    intro st e he
    rw [explore_tables] at he
    rcases List.mem_append.mp he with h | h
    · rcases List.mem_cons.mp h with h2 | h2
      · exact ⟨u, List.mem_cons_self u ts, Or.inl h2⟩
      · rcases List.mem_cons.mp h2 with h3 | h3
        · exact ⟨u, List.mem_cons_self u ts, Or.inr h3⟩
        · simp at h3
    · rcases ih _ e h with ⟨w, hw, hw2⟩
      exact ⟨w, List.mem_cons_of_mem u hw, hw2⟩

theorem exec_select_limit0_mem_explore (db : Db) (ts : List String) :
    ∀ (st : WorkerState) (t : String), t ∈ ts →
      Event.exec (select_limit0 t) ∈ (explore_tables db st ts).2 := by
  induction ts with
  | nil => intro st t ht; simp at ht
  | cons u ts ih =>
    intro st t ht
    rw [explore_tables]
    rcases List.mem_cons.mp ht with h | h
    · subst h
      exact List.mem_append_left _ (List.mem_cons_self _ _)
    · exact List.mem_append_right _ (ih _ t h)

/-- C6: during schema discovery, the primary-key lookup records the first
column of the first row of the information-schema query result when that
result is non-empty, and the sentinel string `_none_` when it is empty. -/
theorem claim_C6 (db : Db) (st : WorkerState) (t : String) :
    ((get_column_details db st t).1).tables_details.lookup t
        = some (mkDetails db t)
    ∧ (db.pkRows (schemaOf t) (tableOf t) = [] →
        (mkDetails db t).primary_key = "_none_")
    ∧ (∀ (c dt : String) (rest : List (String × String)),
        db.pkRows (schemaOf t) (tableOf t) = (c, dt) :: rest →
        (mkDetails db t).primary_key = c) := by
  refine ⟨lookup_setEntry_self _ _ _, fun h => ?_, fun c dt rest h => ?_⟩
  · simp [mkDetails, h]
  · simp [mkDetails, h]

/-- Closed instance of C6: one oracle whose primary-key query is empty
(sentinel recorded) and one where it returns a row (first row, first
column recorded). -/
theorem claim_C6_witness :
    db0.pkRows (schemaOf "public.users") (tableOf "public.users") = []
    ∧ (mkDetails db0 "public.users").primary_key = "_none_"
    ∧ dbWithPk.pkRows (schemaOf "public.users") (tableOf "public.users")
        = [("id", "integer")]
    ∧ (mkDetails dbWithPk "public.users").primary_key = "id" :=
  ⟨rfl, (claim_C6 db0 st0 "public.users").2.1 rfl, rfl,
    (claim_C6 dbWithPk st0 "public.users").2.2 "id" "integer" [] rfl⟩

/-- C7: constructing the worker from a configuration listing
`schema.table` populates that table's `tables_details` entry with its
schema name, bare table name, column mapping and primary key, and every
query the constructor issues targets a declared table (the zero-row select
on it, or the catalog/information-schema lookups parameterised by it). -/
theorem claim_C7 (db : Db) (tables : List String) (t : String)
    (h : t ∈ tables) :
    ((construct db tables).1).tables_details.lookup t
      = some { schema := schemaOf t, table := tableOf t,
               columns := db.columnsOf t,
               primary_key :=
                 match db.pkRows (schemaOf t) (tableOf t) with
                 | [] => "_none_"
                 | r0 :: _ => r0.1 }
    ∧ ∀ e ∈ (construct db tables).2, ∃ u, u ∈ tables ∧
        (e = Event.exec (select_limit0 u)
          ∨ e = Event.exec (pk_query (schemaOf u) (tableOf u))) := by
  constructor
  · exact explore_tables_lookup_of_mem db tables _ t h
  · exact fun e he => explore_tables_events db tables _ e he

/-- Closed instance of C7 on a one-table configuration `public.users`. -/
theorem claim_C7_witness :
    "public.users" ∈ ["public.users"]
    ∧ ((construct db0 ["public.users"]).1).tables_details.lookup "public.users"
        = some { schema := "public", table := "users",
                 columns := [("id", "int4")], primary_key := "_none_" }
    ∧ ∀ e ∈ (construct db0 ["public.users"]).2, ∃ u, u ∈ ["public.users"] ∧
        (e = Event.exec (select_limit0 u)
          ∨ e = Event.exec (pk_query (schemaOf u) (tableOf u))) := by
  refine ⟨by decide, ?_,
    (claim_C7 db0 ["public.users"] "public.users" (by decide)).2⟩
  rw [(claim_C7 db0 ["public.users"] "public.users" (by decide)).1]
  decide

theorem select_limit0_ne_clear (t : String) :
    select_limit0 t ≠ clear_statement t := by
  intro h
  have h2 := congrArg String.length h
  rw [select_limit0, clear_statement] at h2
  simp only [String.length_append] at h2
  rw [show ("SELECT * FROM " : String).length = 14 from rfl,
    show (" LIMIT 0" : String).length = 8 from rfl,
    show ("TRUNCATE " : String).length = 9 from rfl,
    show (" CASCADE" : String).length = 8 from rfl] at h2
  omega

/-- C2 (amended): `select` and all four `insert` variants perform schema
discovery for an undeclared table before their statement executes (the
discovery's zero-row select on the table appears in the trace before the
operation's own statement, which comes last); `clear`, however, executes
`TRUNCATE <t> CASCADE` without any discovery at all. -/
theorem claim_C2 (db : Db) (st : WorkerState) (t : String)
    (fields : List String) (condition : String) (limit : Int)
    (values : List String) (iso : String) (merged : List (String × String))
    (h : st.tables_details.lookup t = none) :
    Event.exec (select_limit0 t) ∈ (explore_if_unknown db st t).2
    ∧ (select db st t fields condition limit).2
        = (explore_if_unknown db st t).2
          ++ [Event.exec (select_statement t fields condition limit)]
    ∧ (insert db st t values).2
        = (explore_if_unknown db st t).2
          ++ [Event.exec (insert_statement
              (detailsOf (explore_if_unknown db st t).1 t) t values)]
    ∧ (insert_timed db st t iso values).2
        = (explore_if_unknown db st t).2
          ++ [Event.exec (insert_timed_statement
              (detailsOf (explore_if_unknown db st t).1 t) t iso values)]
    ∧ (insert_from_maps db st t merged).2
        = (explore_if_unknown db st t).2
          ++ [Event.exec (insert_from_maps_statement t merged)]
    ∧ (clear st t).2 = [Event.exec (clear_statement t)]
    ∧ Event.exec (select_limit0 t) ∉ (clear st t).2 := by
  refine ⟨?_, rfl, rfl, rfl, rfl, rfl, ?_⟩
  · rw [explore_if_unknown, if_neg (by simp [h])]
    exact exec_select_limit0_mem_explore db _ _ t
      (List.mem_append_right _ (List.mem_cons_self _ _))
  · intro hc
    rcases List.mem_cons.mp hc with h2 | h2
    · exact select_limit0_ne_clear t (Event.exec.inj h2)
    · simp at h2

/-- Counterexample to C2 as stated: with table `t` undeclared, `clear`
executes its TRUNCATE with no schema discovery appearing in its trace. -/
theorem claim_C2_cex :
    st0.tables_details.lookup "t" = none
    ∧ (clear st0 "t").2 = [Event.exec "TRUNCATE t CASCADE"]
    ∧ Event.exec (select_limit0 "t") ∉ (clear st0 "t").2 := by
  decide

/-- Closed instance of C2 (amended) at a concrete oracle and empty worker
state. -/
theorem claim_C2_witness :
    st0.tables_details.lookup "t" = none
    ∧ (Event.exec (select_limit0 "t") ∈ (explore_if_unknown db0 st0 "t").2
    ∧ (select db0 st0 "t" [] "" 100).2
        = (explore_if_unknown db0 st0 "t").2
          ++ [Event.exec (select_statement "t" [] "" 100)]
    ∧ (insert db0 st0 "t" ["1"]).2
        = (explore_if_unknown db0 st0 "t").2
          ++ [Event.exec (insert_statement
              (detailsOf (explore_if_unknown db0 st0 "t").1 "t") "t" ["1"])]
    ∧ (insert_timed db0 st0 "t" "2020-01-01T00:00:00" ["1"]).2
        = (explore_if_unknown db0 st0 "t").2
          ++ [Event.exec (insert_timed_statement
              (detailsOf (explore_if_unknown db0 st0 "t").1 "t") "t"
              "2020-01-01T00:00:00" ["1"])]
    ∧ (insert_from_maps db0 st0 "t" [("a", "1")]).2
        = (explore_if_unknown db0 st0 "t").2
          ++ [Event.exec (insert_from_maps_statement "t" [("a", "1")])]
    ∧ (clear st0 "t").2 = [Event.exec (clear_statement "t")]
    ∧ Event.exec (select_limit0 "t") ∉ (clear st0 "t").2) :=
  ⟨rfl, claim_C2 db0 st0 "t" [] "" 100 ["1"] "2020-01-01T00:00:00"
    [("a", "1")] rfl⟩

theorem mk_length (l : List Char) : (String.mk l).length = l.length :=
  rfl

theorem truncate_length_le (s : String) (w : Nat) : (truncate s w).length ≤ w := by
  show (s.take w).length ≤ w
  rw [show (s.take w).length = (s.take w).data.length from rfl, String.data_take,
    List.length_take]
  exact min_le_left _ _

theorem padTo_length (s : String) (w : Nat) (h : s.length ≤ w) :
    (padTo s w).length = w := by
  show (s ++ String.mk (List.replicate (w - s.length) ' ')).length = w
  have h2 : s.data.length ≤ w := h
  rw [String.length_append]
  simp only [mk_length, List.length_replicate]
  omega

theorem print_result_go (flm : List (String × Nat)) (rest : List (List Field)) :
    ∀ s : String,
    (rest.foldl (fun (acc : String × Bool) row =>
        (acc.1 ++ print_row flm row (!acc.2) ++ "\n", true)) (s, true)).1
      = s ++ joinParts (rest.map (fun r2 => print_row flm r2 false ++ "\n")) := by
  induction rest with
  | nil =>
    intro s
    show s = s ++ ""
    rw [String.append_empty]
  | cons r2 l ih =>
    intro s
    show (l.foldl (fun (acc : String × Bool) row =>
        (acc.1 ++ print_row flm row (!acc.2) ++ "\n", true))
        (s ++ print_row flm r2 false ++ "\n", true)).1 = _
    rw [ih (s ++ print_row flm r2 false ++ "\n")]
    show ((s ++ print_row flm r2 false) ++ "\n")
        ++ joinParts (l.map (fun r3 => print_row flm r3 false ++ "\n"))
      = s ++ ((print_row flm r2 false ++ "\n")
        ++ joinParts (l.map (fun r3 => print_row flm r3 false ++ "\n")))
    simp only [String.append_assoc]

theorem print_result_cons (flm : List (String × Nat)) (row : List Field)
    (rest : List (List Field)) :
    print_result flm (row :: rest)
      = print_row flm row true ++ "\n"
        ++ joinParts (rest.map (fun r2 => print_row flm r2 false ++ "\n")) := by
  show (rest.foldl (fun (acc : String × Bool) row2 =>
      (acc.1 ++ print_row flm row2 (!acc.2) ++ "\n", true))
      ("" ++ print_row flm row true ++ "\n", true)).1 = _
  rw [print_result_go flm rest ("" ++ print_row flm row true ++ "\n")]
  rw [empty_append_str]

/-- C5: every printed field is rendered at width
`max(header length, configured width for the type, default 10)`, the value
truncated to that width, left-aligned (value first, space padding after),
followed by the separator `" |"`; the header row is rendered exactly once
per print call, with the first data row. -/
theorem claim_C5 (flm : List (String × Nat)) (f : Field) (row : List Field)
    (rest : List (List Field)) :
    fieldWidth flm f = max f.name.length ((flm.lookup f.typ).getD 10)
    ∧ (render_field flm f).length = fieldWidth flm f + 2
    ∧ render_field flm f
        = truncate f.value (fieldWidth flm f)
          ++ (String.mk (List.replicate
              (fieldWidth flm f - (truncate f.value (fieldWidth flm f)).length) ' ')
            ++ " |")
    ∧ (truncate f.value (fieldWidth flm f)).length ≤ fieldWidth flm f
    ∧ print_result flm (row :: rest)
        = print_row flm row true ++ "\n"
          ++ joinParts (rest.map (fun r2 => print_row flm r2 false ++ "\n"))
    ∧ print_row flm row true
        = joinParts (row.map (render_header_field flm)) ++ "\n"
          ++ joinParts (row.map (render_field flm)) := by
  refine ⟨rfl, ?_, ?_, truncate_length_le _ _, print_result_cons flm row rest, rfl⟩
  · show (padTo (truncate f.value (fieldWidth flm f)) (fieldWidth flm f)
        ++ " |").length = _
    rw [String.length_append,
      padTo_length _ _ (truncate_length_le f.value (fieldWidth flm f)),
      show (" |" : String).length = 2 from rfl]
  · show (truncate f.value (fieldWidth flm f)
        ++ String.mk (List.replicate
          (fieldWidth flm f - (truncate f.value (fieldWidth flm f)).length) ' '))
        ++ " |" = _
    exact String.append_assoc _ _ _

end pgi
